import Mathlib

/-!
Verification of the Chef-Genie recipe application core.

The source is TypeScript; this file is a shallow embedding of its logic:

* JavaScript numbers are modelled as exact rationals (`ℚ`).  Float rounding,
  `NaN` and `Infinity` are outside the model; `parseFloat` returning `NaN`
  is modelled as `Option.none`, and the non-finite literal `Infinity` is
  treated as unparseable.
* Strings are manipulated through their character lists (`String.data`),
  with the JavaScript operations `includes`, `split`, `trim`, `parseFloat`,
  `toFixed(1)` and `replace('.0', '')` embedded as executable functions.
* The calls to the external generative-AI service are modelled by explicit
  environment arguments describing the outcome of each remote call
  (a thrown error, or the returned payload).
-/

/-! ## Decimal digit strings -/

/-- The decimal digit character for a value `0 ≤ n ≤ 9` (values above nine
are clamped to `9`; they never occur). -/
def digitChar : ℕ → Char
  | 0 => '0'
  | 1 => '1'
  | 2 => '2'
  | 3 => '3'
  | 4 => '4'
  | 5 => '5'
  | 6 => '6'
  | 7 => '7'
  | 8 => '8'
  | _ => '9'

/-- Numeric value of a decimal digit character. -/
def digitVal (c : Char) : ℕ := c.toNat - 48

/-- Value of a big-endian list of decimal digit characters. -/
def digitsToNat (ds : List Char) : ℕ := ds.foldl (fun a c => 10 * a + digitVal c) 0

/-- Fuelled big-endian decimal rendering of a natural number. -/
def natToDecAux : ℕ → ℕ → List Char
  | 0, _ => []
  | fuel + 1, n => if n < 10 then [digitChar n] else natToDecAux fuel (n / 10) ++ [digitChar (n % 10)]

/-- Decimal string of a natural number (JS `Number.prototype.toString` on a
nonnegative integer). -/
def decimalString (n : ℕ) : String := String.mk (natToDecAux (n + 1) n)

/-- Decimal string of an integer (JS `Number.prototype.toString` on an
integral number, e.g. the result of `Math.floor`). -/
def intToDecString (i : ℤ) : String :=
  if i < 0 then String.mk ('-' :: (decimalString i.natAbs).data) else decimalString i.toNat

/-! ## JS string helpers -/

/-- JS `String.prototype.includes` for a single-character needle. -/
def containsChar (cs : List Char) (c : Char) : Bool := cs.any (fun x => x == c)

/-- JS `String.prototype.split` with a single-character separator:
`"a-b".split('-') = ["a","b"]`, `"".split('-') = [""]`, `"-".split('-') = ["",""]`. -/
def splitOnChar (c : Char) : List Char → List (List Char)
  | [] => [[]]
  | x :: xs =>
    match splitOnChar c xs with
    | [] => [[x]]
    | h :: t => if x = c then [] :: h :: t else (x :: h) :: t

/-- JS `String.prototype.trim` (over the whitespace characters of the model). -/
def trimChars (cs : List Char) : List Char :=
  ((cs.dropWhile Char.isWhitespace).reverse.dropWhile Char.isWhitespace).reverse

/-! ## JS `parseFloat`

`parseFloat` skips leading whitespace, then reads the longest prefix of the
form `[+|-] (Digits [. Digits] | . Digits) [e|E [+|-] Digits]`, ignoring any
trailing garbage; if no such prefix exists the result is `NaN` (here `none`). -/

/-- Exponent digits of a JS float literal: sign and digit run after `e`/`E`.
An ill-formed exponent is ignored (factor `1`), as the longest valid numeric
prefix then stops before the `e`. -/
def expDigits (cs : List Char) : ℚ :=
  let signRest : Bool × List Char :=
    match cs with
    | '+' :: r => (false, r)
    | '-' :: r => (true, r)
    | _ => (false, cs)
  let ds := signRest.2.takeWhile Char.isDigit
  if ds.isEmpty then 1
  else if signRest.1 then ((10 : ℚ) ^ digitsToNat ds)⁻¹ else (10 : ℚ) ^ digitsToNat ds

/-- Scale factor contributed by an optional exponent part. -/
def expFactor (cs : List Char) : ℚ :=
  match cs with
  | 'e' :: rest => expDigits rest
  | 'E' :: rest => expDigits rest
  | _ => 1

/-- Unsigned part of JS `parseFloat`: integer digits, optional fractional
digits after a dot, optional exponent.  `none` when no digit is found. -/
def parseUnsigned (cs : List Char) : Option ℚ :=
  let ip := cs.takeWhile Char.isDigit
  let r1 := cs.dropWhile Char.isDigit
  let fpr : List Char × List Char :=
    match r1 with
    | '.' :: rest => (rest.takeWhile Char.isDigit, rest.dropWhile Char.isDigit)
    | _ => ([], r1)
  if ip.isEmpty && fpr.1.isEmpty then none
  else some ((digitsToNat ip + (digitsToNat fpr.1 : ℚ) / 10 ^ fpr.1.length) * expFactor fpr.2)

/-- JS `parseFloat`, modelled over exact rationals (`none` = `NaN`). -/
def parseFloat (cs : List Char) : Option ℚ :=
  match cs.dropWhile Char.isWhitespace with
  | [] => none
  | c :: rest =>
    if c = '+' then parseUnsigned rest
    else if c = '-' then (parseUnsigned rest).map Neg.neg
    else parseUnsigned (c :: rest)

/-! ## The quantity formatter (`formatNumber` in `RecipeResult.tsx`) -/

/-- JS `Number.prototype.toFixed(1)` on a nonnegative rational: the integer
`n` closest to `10 * x` (ties to the larger `n`), rendered as `n/10` with one
decimal digit. -/
def toFixed1Pos (x : ℚ) : String :=
  let n : ℕ := (⌊10 * x + 1 / 2⌋).toNat
  String.mk ((decimalString (n / 10)).data ++ '.' :: (decimalString (n % 10)).data)

/-- JS `Number.prototype.toFixed(1)` (sign handled as in ECMA-262). -/
def toFixed1 (x : ℚ) : String :=
  if x < 0 then String.mk ('-' :: (toFixed1Pos (-x)).data) else toFixed1Pos x

/-- Removes the first occurrence of the substring `".0"`, as JS
`replace('.0', '')` does with a string pattern. -/
def replaceDotZeroAux : List Char → List Char
  | [] => []
  | '.' :: '0' :: rest => rest
  | c :: rest => c :: replaceDotZeroAux rest

/-- JS `s.replace('.0', '')`. -/
def replaceFirstDotZero (s : String) : String := String.mk (replaceDotZeroAux s.data)

/-- Glyph rendering used by `formatNumber`: the whole part (when positive), a
space, and the culinary fraction glyph. -/
def mixedGlyph (whole : ℤ) (glyph : String) : String :=
  (if 0 < whole then intToDecString whole ++ (" ") else ("" : String)) ++ glyph

/-- Embeds `formatNumber` from `RecipeResult.tsx`: renders a scaled quantity,
preferring culinary fraction glyphs when the fractional part is close to a
common fraction. -/
def formatNumber (num : ℚ) : String :=
  let whole : ℤ := ⌊num⌋
  let decimal : ℚ := num - whole
  if decimal < 0.01 then intToDecString whole
  else if |decimal - 0.25| < 0.05 then mixedGlyph whole ("¼")
  else if |decimal - 0.33| < 0.05 then mixedGlyph whole ("⅓")
  else if |decimal - 0.5| < 0.05 then mixedGlyph whole ("½")
  else if |decimal - 0.66| < 0.05 then mixedGlyph whole ("⅔")
  else if |decimal - 0.75| < 0.05 then mixedGlyph whole ("¾")
  else replaceFirstDotZero (toFixed1 num)

/-! ## The quantity scaler (`getScaledQuantity` in `RecipeResult.tsx`) -/

/-- Embeds `getScaledQuantity` from `RecipeResult.tsx`: parses a quantity string as a
range `a-b`, a fraction `a/b`, or a single number, scales it by
`target / base`, and re-renders it; any parse failure returns the original
string unchanged. -/
def getScaledQuantity (quantity : String) (base target : ℚ) : String :=
  if quantity = "" then ""
  else if base = target then quantity
  else
    let ratio := target / base
    let cs := quantity.data
    if containsChar cs '-' then
      match (splitOnChar '-' cs).map (fun p => parseFloat (trimChars p)) with
      | some v0 :: some v1 :: rest =>
        if rest.all Option.isSome then
          formatNumber (v0 * ratio) ++ ("-") ++ formatNumber (v1 * ratio)
        else quantity
      | _ => quantity
    else if containsChar cs '/' then
      match splitOnChar '/' cs with
      | pn :: pd :: _ =>
        match parseFloat (trimChars pn), parseFloat (trimChars pd) with
        | some nv, some dv => if dv = 0 then quantity else formatNumber (nv / dv * ratio)
        | _, _ => quantity
      | _ => quantity
    else
      match parseFloat cs with
      | some v => formatNumber (v * ratio)
      | none => quantity

/-! ## Data model (`types.ts`) -/

/-- Embeds `Macros` from `types.ts`. -/
structure Macros where
  calories : ℚ
  protein : ℚ
  carbs : ℚ
  fats : ℚ
deriving DecidableEq

/-- Embeds `Ingredient` from `types.ts`. -/
structure Ingredient where
  item : String
  quantity : String
  unit : String
deriving DecidableEq

/-- One element of the `Ingredient[] | string[]` union kept for backward
compatibility: either a legacy plain string or a structured record. -/
inductive IngEntry where
  | plain (s : String)
  | structured (i : Ingredient)
deriving DecidableEq

/-- Embeds `Recipe` from `types.ts`. -/
structure Recipe where
  title : String
  description : String
  cookingTime : String
  difficulty : String
  servings : ℚ
  ingredients : List IngEntry
  instructions : List String
  macros : Macros
deriving DecidableEq

/-- Embeds `SavedRecipe` from `types.ts`: a `Recipe` plus favorite metadata. -/
structure SavedRecipe extends Recipe where
  id : String
  savedAt : ℚ
  imageUrl : Option String
  rating : Option ℚ
deriving DecidableEq

/-! ## Generation orchestrator (`geminiService` and `handleGenerate` in the app)

Each remote call is modelled by an explicit argument describing its outcome:
`Except.error msg` for a thrown error (network failure and the like), and
`Except.ok payload` for a response, whose payload is the optional text /
image bytes the code reads off the response object. -/

/-- Embeds `generateRecipe` from `geminiService`: fails when the call throws, when
the response carries no (or empty) text, or when the text does not parse as
a `Recipe`.  `parse` models `JSON.parse` plus schema conformance on the
returned text. -/
def generateRecipe (call : Except String (Option String))
    (parse : String → Except String Recipe) : Except String Recipe :=
  match call with
  | .error e => .error e
  | .ok none => .error ("No response from AI")
  | .ok (some text) =>
    if text = "" then .error ("No response from AI")
    else parse text

/-- Embeds `generateDishImage` from `geminiService`: any thrown error or an
empty/absent image payload resolves to `none`; a payload is wrapped into a
data URI.  The function is total: no failure propagates. -/
def generateDishImage (call : Except String (Option String)) : Option String :=
  match call with
  | .error _ => none
  | .ok none => none
  | .ok (some bytes) =>
    if bytes = "" then none else some (("data:image/jpeg;base64,") ++ bytes)

/-- State of the long-running video operation as read by the poll loop:
the `done` flag and the video URI found on the completed response. -/
structure VideoOperation where
  done : Bool
  uri : Option String
deriving DecidableEq

/-- The fixed poll interval of `generateRecipeVideo`, in milliseconds
(`setTimeout(resolve, 5000)`). -/
def pollIntervalMs : ℕ := 5000

/-- The `while (!operation.done)` loop of `generateRecipeVideo`: `initial` is
the operation returned by `generateVideos`, `polls` the successive results of
`getVideosOperation`.  Returns the completed operation together with the
number of `done`-status checks performed; `none` models the unbounded loop
still polling when the listed states are exhausted. -/
def pollLoop : VideoOperation → List VideoOperation → Option (VideoOperation × ℕ)
  | op, polls =>
    if op.done then some (op, 1)
    else
      match polls with
      | [] => none
      | p :: rest => (pollLoop p rest).map (fun r => (r.1, r.2 + 1))

/-- Embeds `generateRecipeVideo` from `geminiService`, after the initial request
succeeded: polls to completion, then returns the video URI with the access
key appended, or `none` when the completed operation carries no URI. -/
def generateRecipeVideo (key : String) (initial : VideoOperation)
    (polls : List VideoOperation) : Option (Option String) :=
  (pollLoop initial polls).map (fun r =>
    match r.1.uri with
    | none => none
    | some u => some (u ++ ("&key=") ++ key))

/-- The slice of the app state written by `handleGenerate` in `App`. -/
structure AppState where
  recipe : Option Recipe
  error : Option String
  imageRequested : Bool
  recipeImage : Option String
  isImageLoading : Bool
deriving DecidableEq

/-- Embeds `handleGenerate` from `App`: awaits `generateRecipe`; on success stores
the recipe and fires the image request, on failure surfaces the error and
requests nothing further. -/
def handleGenerate (call : Except String (Option String))
    (parse : String → Except String Recipe)
    (imageCall : Except String (Option String)) : AppState :=
  match generateRecipe call parse with
  | .error e =>
    { recipe := none
      error := some (("Oops! The kitchen is a bit chaotic right now. Please try again. ") ++ e)
      imageRequested := false
      recipeImage := none
      isImageLoading := false }
  | .ok r =>
    { recipe := some r
      error := none
      imageRequested := true
      recipeImage := generateDishImage imageCall
      isImageLoading := false }

/-! ## Favorites (`handleToggleFavorite`, `handleRateRecipe` in `App`) -/

/-- JS `Array.prototype.findIndex`: index of the first element satisfying
`p`, or `-1`. -/
def findIndex (p : α → Bool) : List α → ℤ
  | [] => -1
  | x :: xs =>
    if p x then 0
    else
      let r := findIndex p xs
      if r < 0 then -1 else r + 1

/-- The `SavedRecipe` built by `handleToggleFavorite` when adding. -/
def mkSavedRecipe (recipe : Recipe) (recipeImage : Option String) (newId : String)
    (now : ℚ) : SavedRecipe :=
  { toRecipe := recipe, id := newId, savedAt := now, imageUrl := recipeImage, rating := none }

/-- Embeds `handleToggleFavorite` from `App`: removes the first favorite whose title
equals the current recipe's title, or prepends a new `SavedRecipe` when none
matches.  `newId` and `now` stand for `crypto.randomUUID()` and `Date.now()`. -/
def handleToggleFavorite (recipe : Recipe) (recipeImage : Option String)
    (newId : String) (now : ℚ) (favorites : List SavedRecipe) : List SavedRecipe :=
  let i := findIndex (fun f => f.title == recipe.title) favorites
  if 0 ≤ i then favorites.eraseIdx i.toNat
  else mkSavedRecipe recipe recipeImage newId now :: favorites

/-- Embeds `handleRateRecipe` from `App`, restricted to the favorites list it maps
over (the separate sync of the currently viewed recipe is not modelled). -/
def handleRateRecipe (id : String) (rating : ℚ) (favorites : List SavedRecipe) :
    List SavedRecipe :=
  favorites.map (fun fav => if fav.id == id then { fav with rating := some rating } else fav)

/-! ## Ingredient rendering (`RecipeResult.tsx`) -/

/-- Embeds `isStructuredIngredients` from `RecipeResult.tsx`: non-empty and the
first element is an object. -/
def isStructuredIngredients (ingredients : List IngEntry) : Bool :=
  decide (0 < ingredients.length) &&
    match ingredients.head? with
    | some (.structured _) => true
    | _ => false

/-- Embeds `formatIngredientText` from `RecipeResult.tsx`. -/
def formatIngredientText (ing : IngEntry) (baseServings currentServings : ℚ) : String :=
  match ing with
  | .plain s => s
  | .structured i =>
    let scaledQty := getScaledQuantity i.quantity baseServings currentServings
    String.intercalate (" ") (([scaledQty, i.unit, i.item]).filter (fun s => s ≠ ""))

/-- The per-ingredient text computed in the `RecipeResult` render:
`isString ? ing : formatIngredientText(ing, recipe.servings || 4, currentServings)`. -/
def renderIngredientText (ing : IngEntry) (recipeServings currentServings : ℚ) : String :=
  match ing with
  | .plain s => s
  | .structured _ =>
    formatIngredientText ing (if recipeServings = 0 then 4 else recipeServings) currentServings

/-- Embeds `canScale` from `RecipeResult.tsx`: the serving-adjustment control is
rendered only when this is truthy. -/
def canScale (recipe : Recipe) : Bool :=
  isStructuredIngredients recipe.ingredients && !(recipe.servings == 0)

/-! ## Spec-side predicates used to settle the claims -/

/-- Whether `Except` holds a value. -/
def exceptIsOk : Except ε α → Bool
  | .ok _ => true
  | .error _ => false

/-- The value of an `Except`, forgetting the error. -/
def exceptToOption : Except ε α → Option α
  | .ok a => some a
  | .error _ => none

/-- The usable text carried by the text-endpoint outcome: the response text
when the call returned one and it is non-empty, otherwise `none` (a thrown
call returns no usable text). -/
def usableText (call : Except String (Option String)) : Option String :=
  match call with
  | .ok (some s) => if s = "" then none else some s
  | _ => none

/-- Written from the claim's words: `q` is an integer string. -/
def isIntegerString (q : String) : Bool :=
  !q.data.isEmpty && q.data.all Char.isDigit

/-- Written from the claim's words: `q` is a decimal string (digits with at
most one dot, at least one digit). -/
def isDecimalString (q : String) : Bool :=
  q.data.any Char.isDigit && q.data.all (fun c => c.isDigit || c == '.') &&
    decide (q.data.count ('.') ≤ 1)

/-- Written from the claim's words: `q` is of the form `a/b` with both parts
parseable and the denominator nonzero. -/
def isFractionShape (q : String) : Bool :=
  match splitOnChar '/' q.data with
  | [a, b] =>
    (parseFloat (trimChars a)).isSome &&
      (match parseFloat (trimChars b) with
       | some d => decide (d ≠ 0)
       | none => false)
  | _ => false

/-- Written from the claim's words: `q` is of the form `a-b` with both parts
parseable. -/
def isRangeShape (q : String) : Bool :=
  match splitOnChar '-' q.data with
  | [a, b] => (parseFloat (trimChars a)).isSome && (parseFloat (trimChars b)).isSome
  | _ => false

/-- The scalable shapes enumerated by claim C1: an integer, a decimal,
`a/b` (parseable, nonzero denominator), or `a-b` (parseable parts). -/
def scalableShape (q : String) : Bool :=
  isIntegerString q || isDecimalString q || isFractionShape q || isRangeShape q

/-- The parse-failure condition under which `getScaledQuantity` actually
falls through to returning the original string: some dash-separated part
unparseable; or (no dash) numerator/denominator of the first two
slash-separated parts unparseable or denominator zero; or (neither
separator) no parseable numeric prefix. -/
def scaleFallsThrough (q : String) : Bool :=
  let cs := q.data
  if containsChar cs '-' then
    !((splitOnChar '-' cs).map (fun p => parseFloat (trimChars p))).all Option.isSome
  else if containsChar cs '/' then
    match splitOnChar '/' cs with
    | pn :: pd :: _ =>
      (match parseFloat (trimChars pn), parseFloat (trimChars pd) with
       | some _, some dv => decide (dv = 0)
       | _, _ => true)
    | _ => true
  else (parseFloat cs).isNone

/-- The ordered glyph table of the display rules in the specification. -/
def glyphTable : List (ℚ × String) := [(0.25, "¼"), (0.33, "⅓"), (0.5, "½"), (0.66, "⅔"), (0.75, "¾")]

/-- First glyph of the table whose target is within `0.05` of `frac`. -/
def firstGlyph (frac : ℚ) : List (ℚ × String) → Option (ℚ × String)
  | [] => none
  | g :: gs => if |frac - g.1| < 0.05 then some g else firstGlyph frac gs

/-- Written from the specification's display rules (§4.1): bare integer when
the fractional part is below `0.01`, else the matching culinary glyph, else
one decimal place with a trailing `.0` stripped. -/
def formatNumberSpec (v : ℚ) : String :=
  let whole : ℤ := ⌊v⌋
  let frac : ℚ := v - whole
  if frac < 0.01 then intToDecString whole
  else
    match firstGlyph frac glyphTable with
    | some g => mixedGlyph whole g.2
    | none => replaceFirstDotZero (toFixed1 v)

/-- Removes the first element satisfying `p` (what `findIndex` followed by
`splice(i, 1)` does to the favorites list). -/
def removeFirst (p : α → Bool) : List α → List α
  | [] => []
  | x :: xs => if p x then xs else x :: removeFirst p xs

/-- Number of favorites carrying a given title. -/
def countTitle (t : String) (l : List SavedRecipe) : ℕ :=
  l.countP (fun f => f.title == t)

/-! ## Claim theorems -/

/-- Claim C5: recipe generation fails exactly when the text endpoint returns
no usable text or the returned text does not parse as valid structured data;
on failure the error is surfaced, no recipe is produced, and the image
request is issued only after the recipe call succeeds. -/
theorem generation_failure_characterization (call : Except String (Option String))
    (parse : String → Except String Recipe) (imageCall : Except String (Option String)) :
    (exceptIsOk (generateRecipe call parse) = false ↔
      (usableText call = none ∨ ∃ s, usableText call = some s ∧ exceptIsOk (parse s) = false))
    ∧ (handleGenerate call parse imageCall).recipe = exceptToOption (generateRecipe call parse)
    ∧ ((handleGenerate call parse imageCall).error = none ↔
        exceptIsOk (generateRecipe call parse) = true)
    ∧ (handleGenerate call parse imageCall).imageRequested = exceptIsOk (generateRecipe call parse) := by
  rcases call with e | t
  · simp [generateRecipe, handleGenerate, usableText, exceptIsOk, exceptToOption]
  · rcases t with _ | s
    · simp [generateRecipe, handleGenerate, usableText, exceptIsOk, exceptToOption]
    · by_cases hs : s = ""
      · simp [generateRecipe, handleGenerate, usableText, exceptIsOk, exceptToOption, hs]
      · rcases hp : parse s with e' | r <;>
          simp [generateRecipe, handleGenerate, usableText, exceptIsOk, exceptToOption, hs, hp]

/-- Claim C6: image generation is best-effort: a thrown call, an absent
result, or an empty result resolves to `none` rather than propagating, and
the image outcome never affects the recipe (or error) produced by a
generation run. -/
theorem image_failure_best_effort (call : Except String (Option String))
    (parse : String → Except String Recipe)
    (imgCall imgCall' : Except String (Option String)) (e : String) :
    generateDishImage (Except.error e) = none
    ∧ generateDishImage (Except.ok none) = none
    ∧ generateDishImage (Except.ok (some "")) = none
    ∧ (handleGenerate call parse imgCall).recipe = (handleGenerate call parse imgCall').recipe
    ∧ (handleGenerate call parse imgCall).error = (handleGenerate call parse imgCall').error := by
  refine ⟨rfl, rfl, by simp [generateDishImage], ?_, ?_⟩ <;>
    rcases h : generateRecipe call parse with e' | r <;> simp [handleGenerate, h]

/-- Claim C7: the video poll loop checks the operation status on a fixed
5-second interval until `done`; an operation reporting `done=false` twice and
then `done=true` yields exactly three status checks and the final video
reference (with the access key appended). -/
theorem video_poll_three_checks (a b : VideoOperation) (u key : String)
    (ha : a.done = false) (hb : b.done = false) :
    pollLoop a [b, ⟨true, some u⟩] = some (⟨true, some u⟩, 3)
    ∧ generateRecipeVideo key a [b, ⟨true, some u⟩] = some (some (u ++ ("&key=") ++ key))
    ∧ pollIntervalMs = 5000 := by
  have h1 : pollLoop a [b, ⟨true, some u⟩] = some (⟨true, some u⟩, 3) := by
    rw [pollLoop, ha]
    simp only [Bool.false_eq_true, if_false]
    rw [pollLoop, hb]
    simp [pollLoop]
  exact ⟨h1, by simp [generateRecipeVideo, h1], rfl⟩

/-- Witness for C7 at a concrete environment. -/
theorem video_poll_three_checks_witness :
    pollLoop ⟨false, none⟩ [⟨false, none⟩, ⟨true, some ("v")⟩] = some (⟨true, some ("v")⟩, 3)
    ∧ generateRecipeVideo ("k") ⟨false, none⟩ [⟨false, none⟩, ⟨true, some ("v")⟩]
        = some (some (("v") ++ ("&key=") ++ ("k")))
    ∧ pollIntervalMs = 5000 :=
  video_poll_three_checks ⟨false, none⟩ ⟨false, none⟩ ("v") ("k") rfl rfl

/-! ## Favorites lemmas -/

theorem findIndex_of_any_false {p : α → Bool} {l : List α} (h : l.any p = false) :
    findIndex p l = -1 := by
  induction l with
  | nil => rfl
  | cons x xs ih =>
    simp only [List.any_cons, Bool.or_eq_false_iff] at h
    simp [findIndex, h.1, ih h.2]

theorem findIndex_of_any_true {p : α → Bool} {l : List α} (h : l.any p = true) :
    0 ≤ findIndex p l ∧ l.eraseIdx (findIndex p l).toNat = removeFirst p l := by
  induction l with
  | nil => simp at h
  | cons x xs ih =>
    by_cases hx : p x = true
    · simp [findIndex, hx, removeFirst]
    · have hx' : p x = false := by simpa using hx
      have hxs : xs.any p = true := by simpa [List.any_cons, hx'] using h
      obtain ⟨h0, he⟩ := ih hxs
      have hne : ¬ findIndex p xs < 0 := by omega
      have hfi : findIndex p (x :: xs) = findIndex p xs + 1 := by
        simp [findIndex, hx', hne]
      have ht : (findIndex p xs + 1).toNat = (findIndex p xs).toNat + 1 := by omega
      constructor
      · rw [hfi]
        omega
      · rw [hfi, ht, List.eraseIdx_cons_succ, he]
        simp [removeFirst, hx']

theorem countP_removeFirst {p : α → Bool} {l : List α} (h : l.any p = true) :
    (removeFirst p l).countP p = l.countP p - 1 := by
  induction l with
  | nil => simp at h
  | cons x xs ih =>
    by_cases hx : p x = true
    · simp [removeFirst, hx, List.countP_cons]
    · have hx' : p x = false := by simpa using hx
      have hxs : xs.any p = true := by simpa [List.any_cons, hx'] using h
      simp [removeFirst, hx', List.countP_cons, ih hxs]

/-- Claim C8: favoriting toggles, deduplicated by title: with the title
present the first matching entry is removed, otherwise a new `SavedRecipe`
is added; toggling twice from an absent title restores the list (no entry of
that title), and toggling never produces a duplicate title. -/
theorem toggle_favorite_dedup (r : Recipe) (img : Option String) (id1 id2 : String)
    (t1 t2 : ℚ) (favs : List SavedRecipe) :
    (favs.any (fun f => f.title == r.title) = true →
       handleToggleFavorite r img id1 t1 favs = removeFirst (fun f => f.title == r.title) favs)
    ∧ (favs.any (fun f => f.title == r.title) = false →
       handleToggleFavorite r img id1 t1 favs = mkSavedRecipe r img id1 t1 :: favs)
    ∧ (favs.any (fun f => f.title == r.title) = false →
       handleToggleFavorite r img id2 t2 (handleToggleFavorite r img id1 t1 favs) = favs
       ∧ countTitle r.title favs = 0)
    ∧ (countTitle r.title favs ≤ 1 →
       countTitle r.title (handleToggleFavorite r img id1 t1 favs) ≤ 1) := by
  have habs : ∀ (i : String) (t : ℚ), favs.any (fun f => f.title == r.title) = false →
      handleToggleFavorite r img i t favs = mkSavedRecipe r img i t :: favs := by
    intro i t h
    unfold handleToggleFavorite
    rw [findIndex_of_any_false h]
    simp
  have hpres : favs.any (fun f => f.title == r.title) = true →
      handleToggleFavorite r img id1 t1 favs = removeFirst (fun f => f.title == r.title) favs := by
    intro h
    obtain ⟨h0, he⟩ := findIndex_of_any_true h
    unfold handleToggleFavorite
    simp [h0, he]
  refine ⟨hpres, habs id1 t1, ?_, ?_⟩
  · intro h
    constructor
    · rw [habs id1 t1 h]
      unfold handleToggleFavorite
      have : findIndex (fun f => f.title == r.title) (mkSavedRecipe r img id1 t1 :: favs) = 0 := by
        simp [findIndex, mkSavedRecipe]
      rw [this]
      simp
    · unfold countTitle
      rw [List.countP_eq_zero]
      intro a ha
      have := List.any_eq_false.mp h a ha
      simpa using this
  · intro hcount
    by_cases h : favs.any (fun f => f.title == r.title) = true
    · rw [hpres h]
      unfold countTitle at hcount ⊢
      rw [countP_removeFirst h]
      omega
    · have h' : favs.any (fun f => f.title == r.title) = false := by simpa using h
      rw [habs id1 t1 h']
      unfold countTitle at hcount ⊢
      have hz : favs.countP (fun f => f.title == r.title) = 0 := by
        rw [List.countP_eq_zero]
        intro a ha
        have := List.any_eq_false.mp h' a ha
        simpa using this
      simp [List.countP_cons, mkSavedRecipe, hz]

/-- A concrete structured recipe used by the witnesses. -/
def sampleRecipe : Recipe :=
  { title := "Lemon Cake"
    description := "A cake"
    cookingTime := "45 mins"
    difficulty := "Easy"
    servings := 4
    ingredients := [IngEntry.structured ⟨"flour", "2", "cups"⟩, IngEntry.structured ⟨"lemon", "1", ""⟩]
    instructions := ["Mix", "Bake"]
    macros := ⟨420, 6, 60, 18⟩ }

/-- A concrete legacy recipe (plain-string ingredients) used by the witnesses. -/
def legacyRecipe : Recipe :=
  { title := "Old Soup"
    description := "A soup"
    cookingTime := "20 mins"
    difficulty := "Easy"
    servings := 2
    ingredients := [IngEntry.plain "2 eggs", IngEntry.plain "salt"]
    instructions := ["Boil"]
    macros := ⟨100, 8, 2, 7⟩ }

/-- A concrete saved favorite used by the witnesses. -/
def sampleSaved : SavedRecipe :=
  { toRecipe := sampleRecipe, id := "x", savedAt := 0, imageUrl := none, rating := none }

/-- Witness for C8: toggling an absent title adds, toggling again removes,
and no duplicate title is produced. -/
theorem toggle_favorite_dedup_witness :
    handleToggleFavorite sampleRecipe none ("a") 0 [] = [mkSavedRecipe sampleRecipe none ("a") 0]
    ∧ handleToggleFavorite sampleRecipe none ("b") 1
        (handleToggleFavorite sampleRecipe none ("a") 0 []) = []
    ∧ countTitle sampleRecipe.title (handleToggleFavorite sampleRecipe none ("a") 0 []) ≤ 1 := by
  obtain ⟨-, h2, h3, h4⟩ := toggle_favorite_dedup sampleRecipe none ("a") ("b") 0 1 []
  exact ⟨h2 rfl, (h3 rfl).1, h4 (by with_unfolding_all decide)⟩

/-- Claim C9: rating a favorite updates only the rating field of entries
whose id matches, leaves every other entry (and every other field) unchanged,
and leaves the list unchanged when no id matches. -/
theorem rate_recipe_frame (id : String) (rating : ℚ) (favs : List SavedRecipe) :
    (handleRateRecipe id rating favs).length = favs.length
    ∧ ((∀ f ∈ favs, f.id ≠ id) → handleRateRecipe id rating favs = favs)
    ∧ ∀ (i : ℕ) (f : SavedRecipe), favs[i]? = some f →
        (f.id ≠ id → (handleRateRecipe id rating favs)[i]? = some f)
        ∧ (f.id = id → (handleRateRecipe id rating favs)[i]? =
            some { f with rating := some rating }) := by
  refine ⟨by simp [handleRateRecipe], ?_, ?_⟩
  · intro h
    unfold handleRateRecipe
    induction favs with
    | nil => rfl
    | cons x xs ih =>
      have hx : (x.id == id) = false := by
        simpa using h x (List.mem_cons_self x xs)
      simp only [List.map_cons, hx, Bool.false_eq_true, if_false]
      rw [ih (fun f hf => h f (List.mem_cons_of_mem x hf))]
  · intro i f hf
    constructor <;> intro hid <;>
      simp [handleRateRecipe, List.getElem?_map, hf, beq_iff_eq, hid]

/-- Witness for C9: rating the matching favorite rewrites only its rating;
a non-matching id leaves the list unchanged. -/
theorem rate_recipe_frame_witness :
    (handleRateRecipe ("x") 5 [sampleSaved])[0]? = some { sampleSaved with rating := some 5 }
    ∧ handleRateRecipe ("y") 5 [sampleSaved] = [sampleSaved] := by
  constructor
  · exact ((rate_recipe_frame ("x") 5 [sampleSaved]).2.2 0 sampleSaved rfl).2 rfl
  · exact (rate_recipe_frame ("y") 5 [sampleSaved]).2.1
      (by intro f hf; rcases List.mem_singleton.mp hf with rfl; with_unfolding_all decide)

/-- Claim C10: with legacy plain-string ingredients each ingredient renders
verbatim, the rendered texts do not depend on the serving count, and the
serving-adjustment control (`canScale`) is offered only for structured
ingredients with a base serving count. -/
theorem legacy_ingredients_verbatim (r : Recipe) (cs cs' : ℚ) :
    ((∀ e ∈ r.ingredients, ∃ s, e = IngEntry.plain s) →
       (∀ s : String, IngEntry.plain s ∈ r.ingredients →
          renderIngredientText (IngEntry.plain s) r.servings cs = s)
       ∧ r.ingredients.map (fun e => renderIngredientText e r.servings cs)
           = r.ingredients.map (fun e => renderIngredientText e r.servings cs')
       ∧ canScale r = false)
    ∧ (canScale r = true → isStructuredIngredients r.ingredients = true ∧ r.servings ≠ 0) := by
  constructor
  · intro hall
    refine ⟨fun s _ => rfl, ?_, ?_⟩
    · apply List.map_congr_left
      intro e he
      obtain ⟨s, rfl⟩ := hall e he
      rfl
    · rcases h : r.ingredients with _ | ⟨e, rest⟩
      · simp [canScale, isStructuredIngredients, h]
      · obtain ⟨s, rfl⟩ := hall e (h ▸ List.mem_cons_self e rest)
        simp [canScale, isStructuredIngredients, h]
  · intro hc
    rw [canScale, Bool.and_eq_true] at hc
    refine ⟨hc.1, ?_⟩
    intro h0
    rw [h0] at hc
    simpa using hc.2

/-- Witness for C10 on a concrete legacy recipe: texts are verbatim and
independent of the serving count, and no scaling control is offered. -/
theorem legacy_ingredients_verbatim_witness :
    renderIngredientText (IngEntry.plain "2 eggs") legacyRecipe.servings 3 = "2 eggs"
    ∧ legacyRecipe.ingredients.map (fun e => renderIngredientText e legacyRecipe.servings 3)
        = legacyRecipe.ingredients.map (fun e => renderIngredientText e legacyRecipe.servings 5)
    ∧ canScale legacyRecipe = false := by
  have hall : ∀ e ∈ legacyRecipe.ingredients, ∃ s, e = IngEntry.plain s := by
    intro e he
    simp only [legacyRecipe, List.mem_cons, List.not_mem_nil, or_false] at he
    rcases he with rfl | rfl
    · exact ⟨"2 eggs", rfl⟩
    · exact ⟨"salt", rfl⟩
  obtain ⟨h1, h2, h3⟩ := (legacy_ingredients_verbatim legacyRecipe 3 5).1 hall
  refine ⟨h1 ("2 eggs") ?_, h2, h3⟩
  simp [legacyRecipe]

/-! ## Display rules (C3) -/

theorem firstGlyph_glyphTable (frac : ℚ) :
    firstGlyph frac glyphTable =
      if |frac - 0.25| < 0.05 then some (0.25, "¼")
      else if |frac - 0.33| < 0.05 then some (0.33, "⅓")
      else if |frac - 0.5| < 0.05 then some (0.5, "½")
      else if |frac - 0.66| < 0.05 then some (0.66, "⅔")
      else if |frac - 0.75| < 0.05 then some (0.75, "¾")
      else none := by
  simp [glyphTable, firstGlyph]

/-- Counterexample for C3 as stated: the fractional part of `2.3` is `0.3`,
within `0.05` of `0.33`, so the glyph branch fires and the value renders as
`2 ⅓`, not as `2.3`. -/
theorem formatNumber_point_three_counterexample :
    formatNumber 2.3 = "2 ⅓" ∧ ("2 ⅓" : String) ≠ "2.3" := by
  with_unfolding_all decide

/-- Claim C3 (amended): `formatNumber` implements exactly the display rules
written from the specification (bare integer below `0.01`; first matching
culinary glyph, whole-part prefixed when positive; otherwise one decimal
place with a trailing `.0` stripped) — with the else-branch examples
`2.0 → "2"` and `2.4 → "2.4"`; `2.3` itself renders as `"2 ⅓"`. -/
theorem formatNumber_display_rules_amended :
    (∀ v : ℚ, formatNumber v = formatNumberSpec v)
    ∧ formatNumber 2 = "2"
    ∧ formatNumber 2.4 = "2.4"
    ∧ formatNumber 2.3 = "2 ⅓" := by
  refine ⟨fun v => ?_, by with_unfolding_all decide, by with_unfolding_all decide,
    by with_unfolding_all decide⟩
  unfold formatNumber formatNumberSpec
  dsimp only
  rw [firstGlyph_glyphTable]
  split_ifs <;> rfl

/-! ## Scaling priority order (C2) -/

/-- Claim C2: for `b ≠ t` the scaler parses in priority order — a string
containing `-` splits into two parts, each scaled by `t/b` and formatted,
rejoined with `-`; otherwise a string containing `/` becomes
`(numerator/denominator) * ratio` when the denominator is nonzero; otherwise
the whole string is parsed and `formatNumber (value * ratio)` returned —
with the three concrete examples of the specification. -/
theorem getScaledQuantity_range (q : String) (b t : ℚ) (hbt : b ≠ t)
    (p0 p1 : List Char) (hdash : containsChar q.data '-' = true)
    (hsplit : splitOnChar '-' q.data = [p0, p1]) (v0 v1 : ℚ)
    (hv0 : parseFloat (trimChars p0) = some v0) (hv1 : parseFloat (trimChars p1) = some v1) :
    getScaledQuantity q b t = formatNumber (v0 * (t / b)) ++ ("-") ++ formatNumber (v1 * (t / b)) := by
  have hq : q ≠ "" := by
    rintro rfl
    simp [containsChar] at hdash
  unfold getScaledQuantity
  rw [if_neg hq, if_neg hbt]
  dsimp only
  simp [hdash, hsplit, hv0, hv1]

theorem getScaledQuantity_fraction (q : String) (b t : ℚ) (hbt : b ≠ t)
    (pn pd : List Char) (hdash : containsChar q.data '-' = false)
    (hslash : containsChar q.data '/' = true)
    (hsplit : splitOnChar '/' q.data = [pn, pd]) (vn vd : ℚ)
    (hvn : parseFloat (trimChars pn) = some vn) (hvd : parseFloat (trimChars pd) = some vd)
    (hvd0 : vd ≠ 0) :
    getScaledQuantity q b t = formatNumber (vn / vd * (t / b)) := by
  have hq : q ≠ "" := by
    rintro rfl
    simp [containsChar] at hslash
  unfold getScaledQuantity
  rw [if_neg hq, if_neg hbt]
  dsimp only
  simp [hdash, hslash, hsplit, hvn, hvd, hvd0]

theorem getScaledQuantity_single (q : String) (b t : ℚ) (hbt : b ≠ t) (v : ℚ)
    (hdash : containsChar q.data '-' = false) (hslash : containsChar q.data '/' = false)
    (hv : parseFloat q.data = some v) :
    getScaledQuantity q b t = formatNumber (v * (t / b)) := by
  have hq : q ≠ "" := by
    rintro rfl
    simp [parseFloat, List.dropWhile] at hv
  unfold getScaledQuantity
  rw [if_neg hq, if_neg hbt]
  dsimp only
  simp [hdash, hslash, hv]

theorem scale_priority_order (q : String) (b t : ℚ) (hbt : b ≠ t) :
    (∀ p0 p1 : List Char, containsChar q.data '-' = true →
       splitOnChar '-' q.data = [p0, p1] →
       ∀ v0 v1 : ℚ, parseFloat (trimChars p0) = some v0 → parseFloat (trimChars p1) = some v1 →
       getScaledQuantity q b t = formatNumber (v0 * (t / b)) ++ ("-") ++ formatNumber (v1 * (t / b)))
    ∧ (∀ pn pd : List Char, containsChar q.data '-' = false → containsChar q.data '/' = true →
       splitOnChar '/' q.data = [pn, pd] →
       ∀ vn vd : ℚ, parseFloat (trimChars pn) = some vn → parseFloat (trimChars pd) = some vd →
       vd ≠ 0 →
       getScaledQuantity q b t = formatNumber (vn / vd * (t / b)))
    ∧ (∀ v : ℚ, containsChar q.data '-' = false → containsChar q.data '/' = false →
       parseFloat q.data = some v →
       getScaledQuantity q b t = formatNumber (v * (t / b)))
    ∧ getScaledQuantity ("1/2") 4 8 = "1"
    ∧ getScaledQuantity ("1/2") 4 6 = "¾"
    ∧ getScaledQuantity ("1-2") 2 4 = "2-4" := by
  refine ⟨?_, ?_, ?_, by with_unfolding_all decide, by with_unfolding_all decide,
    by with_unfolding_all decide⟩
  · intro p0 p1 hdash hsplit v0 v1 hv0 hv1
    exact getScaledQuantity_range q b t hbt p0 p1 hdash hsplit v0 v1 hv0 hv1
  · intro pn pd hdash hslash hsplit vn vd hvn hvd hvd0
    exact getScaledQuantity_fraction q b t hbt pn pd hdash hslash hsplit vn vd hvn hvd hvd0
  · intro v hdash hslash hv
    exact getScaledQuantity_single q b t hbt v hdash hslash hv

/-- Witness for C2: the three concrete scalings of the specification,
obtained from the claim theorem at `b = 2 ≠ 4 = t` and `b = 4`. -/
theorem scale_priority_order_witness :
    getScaledQuantity ("1/2") 4 8 = "1"
    ∧ getScaledQuantity ("1/2") 4 6 = "¾"
    ∧ getScaledQuantity ("1-2") 2 4 = "2-4" := by
  obtain ⟨-, -, -, h4, h5, h6⟩ :=
    scale_priority_order ("1-2") 2 4 (by with_unfolding_all decide)
  exact ⟨h4, h5, h6⟩

/-! ## Pass-through behaviour (C1) -/

/-- Counterexample for C1 as stated: `"1 cup"` is none of the claim's
scalable shapes, yet `parseFloat` reads its numeric prefix `1`, so the
scaler rescales it to `"2"` instead of returning it unchanged. -/
theorem scale_passthrough_counterexample :
    ("1 cup" : String) ≠ "" ∧ (2 : ℚ) ≠ 4 ∧ scalableShape ("1 cup") = false
    ∧ getScaledQuantity ("1 cup") 2 4 = "2" := by
  with_unfolding_all decide

/-- Claim C1 (amended): the scaler returns `q` unchanged when `q` is empty,
the serving counts coincide, or `q` fails the routine's own parse rules
(`scaleFallsThrough`); the embedding is a total function, so no exception
escapes. -/
theorem scale_passthrough_amended (q : String) (b t : ℚ)
    (h : q = "" ∨ b = t ∨ scaleFallsThrough q = true) :
    getScaledQuantity q b t = q := by
  rcases eq_or_ne q "" with rfl | hq
  · simp [getScaledQuantity]
  rcases eq_or_ne b t with rfl | hbt
  · simp [getScaledQuantity, hq]
  replace h : scaleFallsThrough q = true := by tauto
  unfold scaleFallsThrough at h
  unfold getScaledQuantity
  rw [if_neg hq, if_neg hbt]
  dsimp only at h ⊢
  by_cases hdash : containsChar q.data '-' = true
  · rw [if_pos hdash] at h ⊢
    have hall : ((splitOnChar '-' q.data).map (fun p => parseFloat (trimChars p))).all
        Option.isSome = false := by
      simpa using h
    split
    next v0 v1 rest heq =>
      rw [heq] at hall
      simp only [List.all_cons, Option.isSome_some, Bool.true_and] at hall
      rw [hall]
      simp
    next => rfl
  · have hd : ¬ (containsChar q.data '-' = true) := hdash
    rw [if_neg hd] at h ⊢
    by_cases hslash : containsChar q.data '/' = true
    · rw [if_pos hslash] at h ⊢
      split
      next pn pd rest heq =>
        rw [heq] at h
        dsimp only at h
        rcases hn : parseFloat (trimChars pn) with _ | vn <;>
          rcases hd2 : parseFloat (trimChars pd) with _ | vd <;>
            rw [hn, hd2] at h
        have hvd : vd = 0 := by simpa using h
        simp [hvd]
      next => rfl
    · have hs : ¬ (containsChar q.data '/' = true) := hslash
      rw [if_neg hs] at h ⊢
      have : parseFloat q.data = none := by simpa using h
      rw [this]

/-- Witness for C1 (amended): the two pass-through examples of the
specification, non-numeric input and zero denominator. -/
theorem scale_passthrough_amended_witness :
    getScaledQuantity ("pinch") 2 4 = "pinch" ∧ getScaledQuantity ("1/0") 2 4 = "1/0" :=
  ⟨scale_passthrough_amended ("pinch") 2 4 (Or.inr (Or.inr (by with_unfolding_all decide))),
   scale_passthrough_amended ("1/0") 2 4 (Or.inr (Or.inr (by with_unfolding_all decide)))⟩

/-! ## Integer round-trip (C4) -/

theorem digitChar_isDigit (d : ℕ) : (digitChar d).isDigit = true := by
  rcases d with _ | _ | _ | _ | _ | _ | _ | _ | _ | d <;> rfl

theorem digitChar_not_ws (d : ℕ) : (digitChar d).isWhitespace = false := by
  rcases d with _ | _ | _ | _ | _ | _ | _ | _ | _ | d <;> rfl

theorem digitChar_ne_plus (d : ℕ) : digitChar d ≠ '+' := by
  intro h
  have hd := digitChar_isDigit d
  rw [h] at hd
  exact absurd hd (by decide)

theorem digitChar_ne_dash (d : ℕ) : digitChar d ≠ '-' := by
  intro h
  have hd := digitChar_isDigit d
  rw [h] at hd
  exact absurd hd (by decide)

theorem digitChar_beq_dash (d : ℕ) : (digitChar d == '-') = false := by
  rcases d with _ | _ | _ | _ | _ | _ | _ | _ | _ | d <;> rfl

theorem digitChar_beq_slash (d : ℕ) : (digitChar d == '/') = false := by
  rcases d with _ | _ | _ | _ | _ | _ | _ | _ | _ | d <;> rfl

theorem digitVal_digitChar {d : ℕ} (h : d < 10) : digitVal (digitChar d) = d := by
  interval_cases d <;> rfl

theorem digitsToNat_append (l : List Char) (c : Char) :
    digitsToNat (l ++ [c]) = 10 * digitsToNat l + digitVal c := by
  simp [digitsToNat, List.foldl_append]

theorem natToDecAux_spec (fuel : ℕ) : ∀ n, n < 10 ^ (fuel + 1) →
    natToDecAux (fuel + 1) n ≠ []
    ∧ (∀ c ∈ natToDecAux (fuel + 1) n, ∃ d, d < 10 ∧ c = digitChar d)
    ∧ digitsToNat (natToDecAux (fuel + 1) n) = n := by
  induction fuel with
  | zero =>
    intro n h
    have hn : n < 10 := by simpa using h
    refine ⟨by simp [natToDecAux, hn], ?_, ?_⟩
    · intro c hc
      simp [natToDecAux, hn] at hc
      exact ⟨n, hn, hc⟩
    · simp [natToDecAux, hn, digitsToNat, digitVal_digitChar hn]
  | succ fuel ih =>
    intro n h
    by_cases hn : n < 10
    · refine ⟨by simp [natToDecAux, hn], ?_, ?_⟩
      · intro c hc
        simp [natToDecAux, hn] at hc
        exact ⟨n, hn, hc⟩
      · simp [natToDecAux, hn, digitsToNat, digitVal_digitChar hn]
    · have h10 : n / 10 < 10 ^ (fuel + 1) := by
        rw [Nat.div_lt_iff_lt_mul (by norm_num)]
        calc n < 10 ^ (fuel + 1 + 1) := h
          _ = 10 ^ (fuel + 1) * 10 := by rw [pow_succ]
      obtain ⟨hne, hdig, hval⟩ := ih (n / 10) h10
      have hrep : natToDecAux (fuel + 1 + 1) n
          = natToDecAux (fuel + 1) (n / 10) ++ [digitChar (n % 10)] := by
        rw [natToDecAux]
        simp [hn]
      refine ⟨by simp [hrep, hne], ?_, ?_⟩
      · intro c hc
        rw [hrep] at hc
        rcases List.mem_append.mp hc with hc | hc
        · exact hdig c hc
        · refine ⟨n % 10, Nat.mod_lt _ (by norm_num), ?_⟩
          simpa using hc
      · rw [hrep, digitsToNat_append, hval, digitVal_digitChar (Nat.mod_lt _ (by norm_num))]
        omega

theorem decimalString_spec (n : ℕ) :
    (decimalString n).data ≠ []
    ∧ (∀ c ∈ (decimalString n).data, ∃ d, d < 10 ∧ c = digitChar d)
    ∧ digitsToNat (decimalString n).data = n := by
  have h : n < 10 ^ (n + 1) :=
    lt_of_lt_of_le (Nat.lt_pow_self (by norm_num) n)
      (Nat.pow_le_pow_right (by norm_num) (Nat.le_succ n))
  exact natToDecAux_spec n n h

theorem takeWhile_all {p : α → Bool} : ∀ {l : List α}, (∀ a ∈ l, p a = true) →
    l.takeWhile p = l ∧ l.dropWhile p = []
  | [], _ => ⟨rfl, rfl⟩
  | x :: xs, h => by
    have hx : p x = true := h x (List.mem_cons_self x xs)
    have hxs := takeWhile_all (fun a ha => h a (List.mem_cons_of_mem x ha))
    simp [List.takeWhile_cons, List.dropWhile_cons, hx, hxs.1, hxs.2]

theorem parseUnsigned_all_digits {l : List Char} (hne : l ≠ [])
    (hd : ∀ c ∈ l, c.isDigit = true) :
    parseUnsigned l = some (digitsToNat l : ℚ) := by
  obtain ⟨htw, hdw⟩ := takeWhile_all hd
  unfold parseUnsigned
  rw [htw, hdw]
  dsimp only
  rw [if_neg (by simpa using hne)]
  simp [expFactor, digitsToNat]

theorem parseFloat_decimalString (n : ℕ) : parseFloat (decimalString n).data = some (n : ℚ) := by
  obtain ⟨hne, hdig, hval⟩ := decimalString_spec n
  have hdigit : ∀ c ∈ (decimalString n).data, c.isDigit = true := by
    intro c hc
    obtain ⟨d, -, rfl⟩ := hdig c hc
    exact digitChar_isDigit d
  have hws : (decimalString n).data.dropWhile Char.isWhitespace = (decimalString n).data := by
    rcases hl : (decimalString n).data with _ | ⟨c, cs⟩
    · rfl
    · obtain ⟨d, -, rfl⟩ := hdig c (by rw [hl]; exact List.mem_cons_self _ _)
      rw [List.dropWhile_cons, digitChar_not_ws]
      simp
  unfold parseFloat
  rw [hws]
  rcases hl : (decimalString n).data with _ | ⟨c, cs⟩
  · exact absurd hl hne
  · obtain ⟨d, -, rfl⟩ := hdig c (by rw [hl]; exact List.mem_cons_self _ _)
    dsimp only
    rw [if_neg (digitChar_ne_plus d), if_neg (digitChar_ne_dash d)]
    rw [parseUnsigned_all_digits (by simp) (by rw [← hl]; exact hdigit)]
    rw [← hl, hval]

theorem containsChar_all_digits {l : List Char}
    (hd : ∀ c ∈ l, ∃ d, d < 10 ∧ c = digitChar d) {ch : Char}
    (hch : ∀ d, (digitChar d == ch) = false) : containsChar l ch = false := by
  unfold containsChar
  rw [List.any_eq_false]
  intro c hc
  obtain ⟨d, -, rfl⟩ := hd c hc
  simp [hch d]

theorem formatNumber_natCast (m : ℕ) : formatNumber (m : ℚ) = decimalString m := by
  unfold formatNumber
  dsimp only
  rw [Int.floor_natCast]
  have hz : (m : ℚ) - ((m : ℤ) : ℚ) = 0 := by
    push_cast
    ring
  rw [hz, if_pos (by norm_num)]
  unfold intToDecString
  rw [if_neg (by omega)]
  simp

/-- Counterexample for C4 as stated over all integers: the decimal string of
`-1` contains `-`, so the range branch intercepts it, the empty first part
fails to parse, and the string is returned unchanged instead of scaled
(`"-2"` expected for servings 1 → 2). -/
theorem scale_integer_counterexample :
    getScaledQuantity (intToDecString (-1)) 1 2 = intToDecString (-1)
    ∧ intToDecString (-1) ≠ intToDecString ((-1) * 2 / 1) := by
  with_unfolding_all decide

/-- Claim C4 (amended to nonnegative integers): scaling the decimal string of
a natural number `q` from `s` to `t` servings yields the decimal string of
`q * t / s` whenever that quotient is a whole number. -/
theorem scale_integer_amended (q s t : ℕ) (hs : 1 ≤ s) (ht : 1 ≤ t) (hdvd : s ∣ q * t) :
    getScaledQuantity (decimalString q) (s : ℚ) (t : ℚ) = decimalString (q * t / s) := by
  rcases eq_or_ne s t with rfl | hst
  · have hq : q * s / s = q := by
      rw [Nat.mul_div_assoc q (dvd_refl s), Nat.div_self (by omega), Nat.mul_one]
    rw [hq]
    by_cases hqe : decimalString q = "" <;> simp [getScaledQuantity, hqe]
  · obtain ⟨hne, hdig, hval⟩ := decimalString_spec q
    have hbt : (s : ℚ) ≠ (t : ℚ) := by exact_mod_cast hst
    have hdash : containsChar (decimalString q).data '-' = false :=
      containsChar_all_digits hdig digitChar_beq_dash
    have hslash : containsChar (decimalString q).data '/' = false :=
      containsChar_all_digits hdig digitChar_beq_slash
    rw [getScaledQuantity_single _ _ _ hbt _ hdash hslash (parseFloat_decimalString q)]
    obtain ⟨m, hm⟩ := hdvd
    have hs0 : (s : ℚ) ≠ 0 := Nat.cast_ne_zero.mpr (by omega)
    have hval2 : (q : ℚ) * ((t : ℚ) / (s : ℚ)) = (m : ℚ) := by
      rw [← mul_div_assoc, div_eq_iff hs0]
      exact_mod_cast hm.trans (Nat.mul_comm s m)
    have hmn : q * t / s = m := by
      rw [hm, Nat.mul_div_cancel_left m (by omega)]
    rw [hval2, hmn, formatNumber_natCast]

/-- Witness for C4 (amended): `scale("2", 4, 6) = "3"`. -/
theorem scale_integer_amended_witness :
    getScaledQuantity (decimalString 2) ((4 : ℕ) : ℚ) ((6 : ℕ) : ℚ) = decimalString (2 * 6 / 4) :=
  scale_integer_amended 2 4 6 (by decide) (by decide) (by decide)
